import Mathlib

/-
Verification of the waf_proxy reverse-proxy Web Application Firewall
(Python) against its natural-language specification.

The Python data plane is shallowly embedded: pure helpers become Lean
functions, Python dictionaries become association lists preserving
insertion order, Python floats used by the token bucket become rationals,
and Python exceptions become an explicit Except layer.  Functions of the
Python standard library that the code calls (urllib.parse.unquote,
posixpath.normpath, the ipaddress module) are modelled faithfully for the
inputs the data plane manipulates; the ipaddress model covers IPv4
(dotted-quad addresses and value/len CIDRs), which is the address family
exercised by the configuration and by the tests of the repository.
-/

namespace Waf

/-! ## Python exception layer -/

/-- Exceptions raised by the modelled Python code. -/
inductive PyErr where
  | attributeError
  | typeError
  | valueError
  deriving DecidableEq, Repr

/-- Models binding of Python call arguments: a call with the given keyword
names succeeds only when every keyword is among the parameter names of the
callee; otherwise Python raises TypeError. -/
def pyKwargsOk (accepted passed : List String) : Bool :=
  passed.all (fun k => accepted.contains k)

/-- Public names of the Python 3 ipaddress module that the repository code
could reference.  The names IPAddress and IPNetwork used by
SecurityEngine._ip_in_list are not among them (they belonged to the
Python 2 era ipaddr library), so accessing them raises AttributeError. -/
def ipaddressModuleNames : List String :=
  ["ip_address", "ip_network", "ip_interface",
   "IPv4Address", "IPv4Network", "IPv4Interface",
   "IPv6Address", "IPv6Network", "IPv6Interface",
   "AddressValueError", "NetmaskValueError"]

/-! ## String helpers

Structural re-implementations of the Python string operations the data
plane uses, written over character lists so that concrete instances
evaluate inside the kernel. -/

/-- Python str.lower for the ASCII range. -/
def strLower (s : String) : String :=
  String.mk (s.data.map Char.toLower)

/-- Splitting a character list at a single separator character. -/
def splitCharAux (sep : Char) : List Char → List Char → List (List Char)
  | [], acc => [acc.reverse]
  | c :: rest, acc =>
    if c = sep then acc.reverse :: splitCharAux sep rest []
    else splitCharAux sep rest (c :: acc)

/-- Python str.split with a single-character separator. -/
def splitStr (s : String) (sep : Char) : List String :=
  (splitCharAux sep s.data []).map String.mk

/-- Python str.strip with no argument: remove surrounding whitespace. -/
def pyStrip (s : String) : String :=
  String.mk (((s.data.dropWhile Char.isWhitespace).reverse.dropWhile
    Char.isWhitespace).reverse)

/-- Python str.replace of a single character by the empty string. -/
def stripChar (s : String) (c : Char) : String :=
  String.mk (s.data.filter (fun x => x ≠ c))

/-- Python str.replace of a single character by a single character. -/
def replaceChar (s : String) (c r : Char) : String :=
  String.mk (s.data.map (fun x => if x = c then r else x))

/-- Python str.startswith. -/
def strStartsWith (s t : String) : Bool :=
  t.data.isPrefixOf s.data

/-- Python str.rstrip with a single-character argument. -/
def rstripChar (s : String) (c : Char) : String :=
  String.mk ((s.data.reverse.dropWhile (fun x => x = c)).reverse)

/-! ## Model of the Python ipaddress module (IPv4 fragment) -/

/-- Value of a decimal digit character. -/
def digitVal (c : Char) : Nat := c.toNat - 48

/-- Parse one octet of a dotted-quad IPv4 address the way the Python 3
ipaddress module does: one to three decimal digits, no leading zero
(except the single digit 0), value at most 255. -/
def parseOctet (s : String) : Option Nat :=
  let cs := s.data
  if cs.length = 0 ∨ cs.length > 3 then none
  else if ¬ cs.all Char.isDigit then none
  else if cs.length > 1 ∧ cs.headD '0' = '0' then none
  else
    let n := cs.foldl (fun acc c => acc * 10 + digitVal c) 0
    if n ≤ 255 then some n else none

/-- Model of ipaddress.ip_address restricted to IPv4: parse a dotted quad
into its 32-bit value. -/
def parseIPv4 (s : String) : Option Nat :=
  match (splitStr s '.').map parseOctet with
  | [some a, some b, some c, some d] => some (((a * 256 + b) * 256 + c) * 256 + d)
  | _ => none

/-- An IPv4 network: the masked network value together with the mask width. -/
structure IpNetwork where
  netValue : Nat
  maskBits : Nat
  deriving DecidableEq, Repr

/-- Keep the top maskBits bits of a 32-bit value, zeroing the host part. -/
def maskValue (v : Nat) (maskBits : Nat) : Nat :=
  (v / 2 ^ (32 - maskBits)) * 2 ^ (32 - maskBits)

/-- Parse a decimal CIDR mask width: digits only, value at most 32. -/
def parseMaskBits (s : String) : Option Nat :=
  let cs := s.data
  if cs.length = 0 ∨ ¬ cs.all Char.isDigit then none
  else
    let n := cs.foldl (fun acc c => acc * 10 + digitVal c) 0
    if n ≤ 32 then some n else none

/-- Model of ipaddress.ip_network with strict set to False, restricted to
IPv4: either a bare address (mask width 32) or value/width, with host bits
silently masked away. -/
def parseNetwork (s : String) : Option IpNetwork :=
  match splitStr s '/' with
  | [a] => (parseIPv4 a).map (fun v => ⟨v, 32⟩)
  | [a, m] =>
    match parseIPv4 a, parseMaskBits m with
    | some v, some bits => some ⟨maskValue v bits, bits⟩
    | _, _ => none
  | _ => none

/-- Membership of an address value in a network, as the Python in operator
on ipaddress objects. -/
def memNet (v : Nat) (n : IpNetwork) : Bool :=
  maskValue v n.maskBits = n.netValue

/-! ## Dictionaries and request objects -/

/-- Exact-key lookup in a Python dict modelled as an insertion-ordered
association list: dict.get(key). -/
def dictGet (d : List (String × String)) (key : String) : Option String :=
  (d.find? (fun kv => kv.1 = key)).map (fun kv => kv.2)

/-- Python dict item assignment: replace the value of an existing key in
place, or append a new binding. -/
def dictSet (d : List (String × String)) (key val : String) : List (String × String) :=
  if d.any (fun kv => kv.1 = key) then
    d.map (fun kv => if kv.1 = key then (kv.1, val) else kv)
  else d ++ [(key, val)]

/-- The slice of a Starlette Request object that the data plane reads.
Header lookup through request.headers is case-insensitive; clientHost is
request.client.host and is absent when request.client is None; bodyChunks
are the chunks yielded by the request body stream. -/
structure PyRequest where
  path : String
  query : String
  scheme : String
  method : String
  headers : List (String × String)
  clientHost : Option String
  bodyChunks : List String

/-- Case-insensitive header lookup, as starlette request.headers.get. -/
def headersGet (req : PyRequest) (name : String) : Option String :=
  (req.headers.find? (fun kv => strLower kv.1 = strLower name)).map (fun kv => kv.2)

/-- The dict obtained by dict(request.headers): starlette stores header
names lowercased. -/
def requestHeadersDict (req : PyRequest) : List (String × String) :=
  req.headers.map (fun kv => (strLower kv.1, kv.2))

/-- Full content of the request body stream, as returned by the Python
awaited request.body(). -/
def requestBody (req : PyRequest) : String :=
  String.join req.bodyChunks

/-! ## normalize.get_client_ip -/

/-- Loop of the first phase of get_client_ip over the trusted entries:
parsing an entry raises ValueError, ending the whole try block. -/
def peerTrustedLoop (addr : Nat) : List String → Except PyErr Bool
  | [] => .ok false
  | t :: rest =>
    match parseNetwork t with
    | none => .error .valueError
    | some net => if memNet addr net then .ok true else peerTrustedLoop addr rest

/-- First phase of get_client_ip: decide whether the socket peer is inside
a trusted CIDR.  Translated from the first loop of the source: parsing the
peer or any trusted entry may raise ValueError, which the caller catches
by returning the peer. -/
def peerTrustedCheck (peerIp : String) (tps : List String) : Except PyErr Bool :=
  match parseIPv4 peerIp with
  | none => .error .valueError
  | some addr => peerTrustedLoop addr tps

/-- Pop condition of the walk-from-the-right loop of get_client_ip: an
element is removed while it fails to parse or lies in a trusted network. -/
def xffShouldPop (nets : List IpNetwork) (ip : String) : Bool :=
  match parseIPv4 ip with
  | none => true
  | some a => nets.any (memNet a)

/-- Strip elements from the right of the chain while they are trusted (or
unparsable), as the while loop of get_client_ip. -/
def stripTrustedRight (chain : List String) (nets : List IpNetwork) : List String :=
  (chain.reverse.dropWhile (xffShouldPop nets)).reverse

/-- Translation of normalize.get_client_ip: derive the client IP from the
socket peer and the X-Forwarded-For header, honoring the header only when
the peer lies in a trusted-proxy CIDR. -/
def get_client_ip (req : PyRequest) (trustedProxies : Option (List String)) : String :=
  let peerIp := req.clientHost.getD "0.0.0.0"
  match trustedProxies with
  | none => peerIp
  | some tps =>
    if tps.isEmpty then peerIp
    else
      match peerTrustedCheck peerIp tps with
      | .error _ => peerIp
      | .ok false => peerIp
      | .ok true =>
        match headersGet req "x-forwarded-for" with
        | none => peerIp
        | some xff =>
          if xff = "" then peerIp
          else
            let xffList := (((splitStr xff ',').map pyStrip).filter
              (fun e => e ≠ "")).filter (fun e => (parseIPv4 e).isSome)
            let chain := xffList ++ [peerIp]
            let trustedNetworks := tps.filterMap parseNetwork
            match (stripTrustedRight chain trustedNetworks).getLast? with
            | some last => last
            | none => peerIp

/-- Restatement of the claim for get_client_ip, following the words of the
specification: the X-Forwarded-For entries with non-parsable entries
discarded, the peer appended, trusted elements stripped from the right;
the last remaining element, or the peer when the list becomes empty. -/
def specResolveXff (peerIp xff : String) (nets : List IpNetwork) : String :=
  let entries := ((splitStr xff ',').map pyStrip).filter
    (fun e => (parseIPv4 e).isSome)
  let chain := entries ++ [peerIp]
  let stripped := (chain.reverse.dropWhile
    (fun ip => match parseIPv4 ip with
               | none => false
               | some a => nets.any (memNet a))).reverse
  match stripped.getLast? with
  | some last => last
  | none => peerIp

/-- Containment of the peer in some entry of the trusted-proxy list,
following the words of the specification. -/
def peerContained (peerIp : String) (tps : List String) : Bool :=
  match parseIPv4 peerIp with
  | none => false
  | some a => tps.any (fun t =>
      match parseNetwork t with
      | none => false
      | some n => memNet a n)

/-! ## Percent decoding and normalize.py helpers -/

/-- Value of a hexadecimal digit character, if any. -/
def hexVal (c : Char) : Option Nat :=
  if '0' ≤ c ∧ c ≤ '9' then some (c.toNat - 48)
  else if 'a' ≤ c ∧ c ≤ 'f' then some (c.toNat - 87)
  else if 'A' ≤ c ∧ c ≤ 'F' then some (c.toNat - 55)
  else none

/-- Character-level model of urllib.parse.unquote: a percent sign followed
by two hexadecimal digits becomes the denoted byte; any other percent sign
is kept literally.  Multi-byte UTF-8 sequences are decoded byte-for-byte
to the corresponding code points, which agrees with Python on the ASCII
inputs the WAF rules inspect. -/
def unquoteChars : List Char → List Char
  | [] => []
  | '%' :: a :: b :: rest =>
    (match hexVal a, hexVal b with
     | some ha, some hb => Char.ofNat (16 * ha + hb) :: unquoteChars rest
     | _, _ => '%' :: unquoteChars (a :: b :: rest))
  | '%' :: rest => '%' :: unquoteChars rest
  | c :: rest => c :: unquoteChars rest

/-- Model of urllib.parse.unquote on strings. -/
def pyUnquote (s : String) : String :=
  String.mk (unquoteChars s.data)

/-- Translation of normalize._multi_urldecode: percent-decode up to the
given number of iterations, returning the empty string unchanged. -/
def multiUrldecode (s : String) (times : Nat) : String :=
  if s = "" then "" else Nat.iterate pyUnquote times s

/-- Translation of normalize.normalize_query: decode twice and remove null
bytes; a missing query normalizes to the empty string. -/
def normalize_query (queryString : Option String) : String :=
  match queryString with
  | none => ""
  | some q => stripChar (multiUrldecode q 2) '\x00'

/-- Translation of normalize.decode_path: decode up to twice, replace
backslashes by slashes, strip null bytes and guarantee a leading slash,
without collapsing dot-dot segments. -/
def decode_path (path : String) : String :=
  let p := multiUrldecode path 2
  let p := replaceChar p '\\' '/'
  let p := stripChar p '\x00'
  if strStartsWith p "/" then p else "/" ++ p

/-- One step of the component loop of posixpath.normpath. -/
def normpathStep (initialSlashes : Nat) (acc : List String) (comp : String) : List String :=
  if comp = "" ∨ comp = "." then acc
  else if comp ≠ ".." ∨ (initialSlashes = 0 ∧ acc = []) ∨ acc.getLast? = some ".." then
    acc ++ [comp]
  else if acc ≠ [] then acc.dropLast
  else acc

/-- Model of posixpath.normpath: resolve single and double dots and
collapse duplicate slashes, keeping up to two leading slashes. -/
def posixNormpath (p : String) : String :=
  if p = "" then "." else
  let initialSlashes : Nat :=
    if strStartsWith p "/" then
      if strStartsWith p "//" ∧ ¬ strStartsWith p "///" then 2 else 1
    else 0
  let comps := splitStr p '/'
  let newComps := comps.foldl (normpathStep initialSlashes) []
  let joined := String.mk (List.replicate initialSlashes '/') ++
    String.intercalate "/" newComps
  if joined = "" then "." else joined

/-- Translation of normalize.canonicalize_path: posix normalization of an
already decoded path, with the leading slash restored. -/
def canonicalize_path (decodedPath : String) : String :=
  let p := posixNormpath decodedPath
  if strStartsWith p "/" then p else "/" ++ p

/-- Translation of normalize.extract_headers_subset: lowercased
name:value pairs of the five inspected headers, space-joined, omitting
missing or empty values. -/
def extract_headers_subset (req : PyRequest) : String :=
  let parts := (["user-agent", "referer", "content-type", "accept", "host"].filterMap
    (fun h => match headersGet req h with
              | some v => if v = "" then none else some (strLower (h ++ ":" ++ v))
              | none => none))
  String.intercalate " " parts

/-- Translation of normalize.build_inspection_dict: decoded raw path,
canonicalized path, normalized query and header digest, each truncated to
the inspection budget, with the body appended when provided.  The
signature has exactly the three parameters of the source. -/
def build_inspection_dict (req : PyRequest) (maxInspectBytes : Nat)
    (bodyBytes : Option String) : List (String × String) :=
  let pathRaw := decode_path req.path
  let path := canonicalize_path pathRaw
  let query := normalize_query (some req.query)
  let headers := extract_headers_subset req
  let base := [("path_raw", pathRaw.take maxInspectBytes),
               ("path", path.take maxInspectBytes),
               ("query", query.take maxInspectBytes),
               ("headers", headers.take maxInspectBytes)]
  match bodyBytes with
  | some b => base ++ [("body", b.take maxInspectBytes)]
  | none => base

/-! ## engine.py: SecurityEngine -/

/-- An entry of a parsed IP allow or block list: a single address or a
network, as produced by SecurityEngine._parse_ip_list. -/
inductive IpEntry where
  | addr (v : Nat)
  | net (n : IpNetwork)
  deriving DecidableEq, Repr

/-- Translation of SecurityEngine._parse_ip_list: try each entry as an
address, then as a network, skipping entries that parse as neither. -/
def parseIpList (entries : List String) : List IpEntry :=
  entries.filterMap (fun e =>
    match parseIPv4 e with
    | some v => some (.addr v)
    | none =>
      match parseNetwork e with
      | some n => some (.net n)
      | none => none)

/-- The comparison the isinstance dispatch of _ip_in_list intends: equality
against a single address, membership for a network. -/
def ipEntryMatches (a : Nat) : IpEntry → Bool
  | .addr v => a = v
  | .net n => memNet a n

/-- Translation of SecurityEngine._ip_in_list.  The source guards the loop
with except ValueError only; inside the loop it evaluates
isinstance(entry, ipaddress.IPAddress), and the name IPAddress does not
exist in the Python 3 ipaddress module, so the first iteration over a
non-empty list raises AttributeError, which escapes the function. -/
def ipInList (clientIp : String) (ipList : List IpEntry) : Except PyErr Bool :=
  match parseIPv4 clientIp with
  | none => .ok false
  | some a =>
    match ipList with
    | [] => .ok false
    | _ :: _ =>
      if ipaddressModuleNames.contains "IPAddress" then
        .ok (ipList.any (ipEntryMatches a))
      else
        .error .attributeError

/-- A compiled rule as stored by the engine: the compiled regular
expression is modelled by its search function on truncated text. -/
structure CompiledRule where
  id : String
  target : String
  matcher : String → Bool
  score : Int
  enabled : Bool

/-- The state SecurityEngine.__init__ derives from the configuration. -/
structure EngineState where
  ipAllowlist : List IpEntry
  ipBlocklist : List IpEntry
  allowThreshold : Int
  challengeThreshold : Int
  blockThreshold : Int
  mode : String
  maxInspectBytes : Nat
  rules : List CompiledRule

/-- A finding emitted by a matched rule. -/
structure Finding where
  ruleId : String
  target : String
  score : Int
  deriving DecidableEq, Repr

/-- Translation of SecurityEngine._decide_verdict: map the aggregate score
to a verdict through the thresholds, with monitor mode demoting BLOCK to
SUSPICIOUS. -/
def decide_verdict (e : EngineState) (score : Int) : String :=
  let v :=
    if score ≥ e.blockThreshold then "BLOCK"
    else if score > e.allowThreshold then "SUSPICIOUS"
    else "ALLOW"
  if e.mode = "monitor" ∧ v = "BLOCK" then "SUSPICIOUS" else v

/-- The rule loop of SecurityEngine.evaluate: every enabled rule is run on
the target field of the inspection dict (missing fields read as the empty
string), truncated to the inspection budget; each match contributes a
finding with the score of the rule. -/
def evalRules (e : EngineState) (inspection : List (String × String)) : List Finding :=
  e.rules.filterMap (fun r =>
    if ¬ r.enabled then none
    else
      let text := ((dictGet inspection r.target).getD "").take e.maxInspectBytes
      if r.matcher text then some ⟨r.id, r.target, r.score⟩ else none)

/-- Result dictionary of SecurityEngine.evaluate. -/
structure EvalResult where
  verdict : String
  score : Int
  findings : List Finding
  ruleIds : List String

/-- Translation of SecurityEngine.evaluate: allowlist fast path, blocklist
fast path with a synthetic score of 100, then the rule loop with the
aggregate score thresholded into a verdict.  The exceptions raised by
_ip_in_list propagate to the caller. -/
def evaluate (e : EngineState) (inspection : List (String × String))
    (clientIp : String) : Except PyErr EvalResult :=
  match ipInList clientIp e.ipAllowlist with
  | .error err => .error err
  | .ok true =>
    .ok ⟨"ALLOW", 0, [⟨"allowlist", "ip", 0⟩], ["allowlist"]⟩
  | .ok false =>
    match ipInList clientIp e.ipBlocklist with
    | .error err => .error err
    | .ok true =>
      .ok ⟨decide_verdict e 100, 100, [⟨"blocklist", "ip", 100⟩], ["blocklist"]⟩
    | .ok false =>
      let fs := evalRules e inspection
      let total := (fs.map (fun f => f.score)).sum
      .ok ⟨decide_verdict e total, total, fs,
           (fs.filter (fun f => f.ruleId ≠ "")).map (fun f => f.ruleId)⟩

/-! ## headers.py: hop-by-hop filtering -/

/-- The hop-by-hop header set of proxy.headers. -/
def HOP_BY_HOP_HEADERS : List String :=
  ["connection", "keep-alive", "proxy-authenticate", "proxy-authorization",
   "te", "trailer", "transfer-encoding", "upgrade"]

/-- Headers removed in addition to hop-by-hop ones. -/
def HEADERS_TO_REMOVE : List String :=
  HOP_BY_HOP_HEADERS ++ ["content-length"]

/-- Translation of proxy.headers.should_forward_header. -/
def should_forward_header (headerName : String) : Bool :=
  ¬ HEADERS_TO_REMOVE.contains (strLower headerName)

/-- The extra removal tokens both filters read from the dictionary: the
value of the key connection looked up exactly (a plain dict get), split on
commas, trimmed, lowercased, empties dropped. -/
def connectionTokens (headers : List (String × String)) : List String :=
  let ch := (dictGet headers "connection").getD ""
  (((splitStr ch ',').map (fun t => strLower (pyStrip t))).filter (fun t => t ≠ ""))

/-- Translation of proxy.headers.filter_request_headers: drop every header
whose lowercased name is hop-by-hop, is content-length, or is listed in
the connection entry of the dictionary; keep the rest in order. -/
def filter_request_headers (headers : List (String × String)) : List (String × String) :=
  let toks := connectionTokens headers
  headers.filter (fun kv =>
    should_forward_header kv.1 ∧ ¬ toks.contains (strLower kv.1))

/-- Translation of proxy.headers.filter_response_headers, whose body is
identical to the request filter, including the removal of content-length
through should_forward_header. -/
def filter_response_headers (headers : List (String × String)) : List (String × String) :=
  let toks := connectionTokens headers
  headers.filter (fun kv =>
    should_forward_header kv.1 ∧ ¬ toks.contains (strLower kv.1))

/-- Restatement of the claim for the response filter, following the words
of the specification: only the eight hop-by-hop names and the
(case-insensitively looked up) connection-listed tokens are removed, and
content-length passes through. -/
def specFilterResponse (headers : List (String × String)) : List (String × String) :=
  let ch := ((headers.find? (fun kv => (strLower kv.1) = "connection")).map
    (fun kv => kv.2)).getD ""
  let toks := (((splitStr ch ',').map (fun t => strLower (pyStrip t))).filter (fun t => t ≠ ""))
  headers.filter (fun kv =>
    ¬ HOP_BY_HOP_HEADERS.contains (strLower kv.1) ∧ ¬ toks.contains (strLower kv.1))

/-- Translation of proxy.headers.add_forwarding_headers: append the client
IP to x-forwarded-for (or create it) and set x-forwarded-proto and
x-forwarded-host only when absent. -/
def add_forwarding_headers (headers : List (String × String))
    (clientIp origScheme origHost : String) : List (String × String) :=
  let xff := (dictGet headers "x-forwarded-for").getD ""
  let headers :=
    if xff ≠ "" then dictSet headers "x-forwarded-for" (xff ++ ", " ++ clientIp)
    else dictSet headers "x-forwarded-for" clientIp
  let headers :=
    if (dictGet headers "x-forwarded-proto").isNone then
      dictSet headers "x-forwarded-proto" origScheme
    else headers
  if (dictGet headers "x-forwarded-host").isNone then
    dictSet headers "x-forwarded-host" origHost
  else headers

/-! ## rate_limiter.py: token bucket -/

/-- State of a TokenBucket.  Python floats are modelled as rationals; the
constructor receives the requests-per-minute figure twice and divides the
second copy by sixty to obtain the per-second refill rate. -/
structure TokenBucket where
  capacity : ℚ
  refillRate : ℚ
  tokens : ℚ
  lastRefill : ℚ

/-- Translation of TokenBucket.__init__ with the monotonic clock made an
explicit argument. -/
def TokenBucket.make (capacity refillParam now : ℚ) : TokenBucket :=
  ⟨capacity, refillParam / 60, capacity, now⟩

/-- Translation of TokenBucket.allow_request: refill from the elapsed
monotonic time, capped at the capacity, then consume one token when at
least one is available. -/
def TokenBucket.allowRequest (b : TokenBucket) (now : ℚ) : Bool × TokenBucket :=
  let newTokens := min b.capacity (b.tokens + (now - b.lastRefill) * b.refillRate)
  if newTokens ≥ 1 then
    (true, { b with tokens := newTokens - 1, lastRefill := now })
  else
    (false, { b with tokens := newTokens, lastRefill := now })

/-- State of the RateLimiter: the default requests-per-minute figure and
the bucket map. -/
structure RateLimiterState where
  defaultRpm : ℚ
  buckets : List (String × TokenBucket)

/-- Exact-key lookup in the bucket map. -/
def bucketsGet (bs : List (String × TokenBucket)) (key : String) : Option TokenBucket :=
  (bs.find? (fun kv => kv.1 = key)).map (fun kv => kv.2)

/-- Assignment in the bucket map. -/
def bucketsSet (bs : List (String × TokenBucket)) (key : String)
    (b : TokenBucket) : List (String × TokenBucket) :=
  if bs.any (fun kv => kv.1 = key) then
    bs.map (fun kv => if kv.1 = key then (kv.1, b) else kv)
  else bs ++ [(key, b)]

/-- Truthiness of the optional per-call limit, as the Python condition
if limit and key not in self.buckets. -/
def limitTruthy (limit : Option ℚ) : Bool :=
  match limit with
  | some v => v ≠ 0
  | none => false

/-- Translation of RateLimiter.is_allowed: an absent bucket is created on
first reference with full tokens (through the custom-limit branch or the
defaultdict factory), then the bucket decides and the map is updated. -/
def isAllowed (rl : RateLimiterState) (key : String) (limit : Option ℚ)
    (now : ℚ) : Bool × RateLimiterState :=
  let rl :=
    if limitTruthy limit ∧ (bucketsGet rl.buckets key).isNone then
      { rl with buckets := (bucketsSet rl.buckets key
          (TokenBucket.make (limit.getD rl.defaultRpm) (limit.getD rl.defaultRpm) now)) }
    else rl
  match bucketsGet rl.buckets key with
  | some b =>
    let (res, b2) := b.allowRequest now
    (res, { rl with buckets := bucketsSet rl.buckets key b2 })
  | none =>
    let b := TokenBucket.make rl.defaultRpm rl.defaultRpm now
    let (res, b2) := b.allowRequest now
    (res, { rl with buckets := bucketsSet rl.buckets key b2 })

/-! ## proxy_client.py: the Forwarder -/

/-- Translation of ProxyClient._build_upstream_url: trim trailing slashes
from the base and append the path and optional query. -/
def buildUpstreamUrl (upstreamBase path query : String) : String :=
  let base := rstripChar upstreamBase '/'
  if query ≠ "" then base ++ path ++ "?" ++ query else base ++ path

/-- The parameter names of ProxyClient.forward_request as defined in the
source: there is no parameter for a prebuffered body. -/
def forwardRequestParams : List String :=
  ["upstream_url", "request", "client_ip"]

/-- What forward_request sends upstream. -/
structure ForwardedRequest where
  url : String
  headers : List (String × String)
  bodySent : Option String
  method : String

/-- Translation of the request-composition part of
ProxyClient.forward_request: build the upstream URL, filter and extend the
headers, and read the body afresh from the request stream for body-bearing
methods.  The function has no access to any body prebuffered by the
pipeline. -/
def forward_request (upstreamUrl : String) (req : PyRequest)
    (clientIp : String) : ForwardedRequest :=
  let url := buildUpstreamUrl upstreamUrl req.path req.query
  let headers := filter_request_headers (requestHeadersDict req)
  let scheme := if req.scheme = "" then "http" else req.scheme
  let origHost := (headersGet req "host").getD "localhost"
  let headers := add_forwarding_headers headers clientIp scheme origHost
  let body :=
    if req.method = "POST" ∨ req.method = "PUT" ∨ req.method = "PATCH" then
      some (requestBody req)
    else none
  ⟨url, headers, body, req.method⟩

/-! ## models.py: configuration validation -/

/-- Raw fields of UpstreamConfig. -/
structure RawUpstream where
  name : String
  url : String
  hosts : Option (List String)
  pathPrefixes : Option (List String)
  weight : Option Int
  healthcheckPath : Option String
  deriving DecidableEq, Repr

/-- Raw fields of ThresholdsConfig, which declares no validator. -/
structure RawThresholds where
  allow : Int
  challenge : Int
  block : Int
  deriving DecidableEq, Repr

/-- Raw fields of WAFSettingsConfig, whose only validator checks the
mode. -/
structure RawWafSettings where
  mode : String
  maxInspectBytes : Int
  maxBodyBytes : Int
  inspectBody : Bool
  deriving DecidableEq, Repr

/-- Raw fields of the top-level Config model. -/
structure RawConfig where
  upstreams : List RawUpstream
  ipAllowlist : Option (List String)
  ipBlocklist : Option (List String)
  trustedProxies : Option (List String)
  thresholds : Option RawThresholds
  wafSettings : Option RawWafSettings
  deriving DecidableEq, Repr

/-- The weight validator of UpstreamConfig. -/
def validUpstreamWeight (u : RawUpstream) : Bool :=
  match u.weight with
  | some w => w > 0
  | none => true

/-- The mode validator of WAFSettingsConfig. -/
def validWafMode (w : RawWafSettings) : Bool :=
  w.mode = "monitor" ∨ w.mode = "block"

/-- The per-entry check of the allow and block lists in Config.__init__:
the entry must parse as an address or as a network. -/
def validIpEntry (e : String) : Bool :=
  (parseIPv4 e).isSome ∨ (parseNetwork e).isSome

/-- Translation of constructing models.Config: the nested field
validators (positive upstream weights, waf mode) run first, then
Config.__init__ checks that trusted-proxy CIDRs and allow and block list
entries parse.  No other structural check exists: in particular nothing
constrains the ordering of the thresholds or relates max_inspect_bytes to
max_body_bytes. -/
def mkConfig (c : RawConfig) : Except String RawConfig :=
  if ¬ c.upstreams.all validUpstreamWeight then
    .error "Weight must be positive"
  else if ¬ (c.wafSettings.all validWafMode) then
    .error "Mode must be monitor or block"
  else if ¬ ((c.trustedProxies.getD []).all (fun t => (parseNetwork t).isSome)) then
    .error "Invalid CIDR range"
  else if ¬ ((c.ipAllowlist.getD []).all validIpEntry) then
    .error "Invalid IP or CIDR in allowlist"
  else if ¬ ((c.ipBlocklist.getD []).all validIpEntry) then
    .error "Invalid IP or CIDR in blocklist"
  else .ok c

/-! ## waf_middleware.py: the request pipeline -/

/-- The bypass set of the middleware, from the INTERNAL_PATHS constant. -/
def INTERNAL_PATHS : List String :=
  ["/", "/_waf/metrics", "/_waf/readyz", "/_waf/healthz",
   "/docs", "/redoc", "/openapi.json"]

/-- The internal paths the specification documents as the bypass set. -/
def specDocumentedInternalPaths : List String :=
  ["/_waf/healthz", "/_waf/readyz", "/_waf/metrics", "/"]

/-- Model of Python int() on a string: optional surrounding whitespace,
optional sign, at least one decimal digit. -/
def parseIntPy (s : String) : Option Int :=
  let t := pyStrip s
  let core := if strStartsWith t "-" ∨ strStartsWith t "+" then t.drop 1 else t
  if core.length = 0 ∨ ¬ core.data.all Char.isDigit then none
  else
    let n : Int := core.data.foldl (fun acc c => acc * 10 + (digitVal c : Int)) 0
    some (if strStartsWith t "-" then -n else n)

/-- Outcome of the body-size enforcement step of the pipeline. -/
inductive BodyCheck where
  | reject
  | accept (bodyBytes : Option String)
  deriving DecidableEq, Repr

/-- The incremental read loop of the pipeline: accumulate chunks, aborting
as soon as the running length exceeds the limit. -/
def readChunksLimited (maxBodyBytes : Nat) : String → List String → Option String
  | acc, [] => some acc
  | acc, c :: rest =>
    let acc2 := acc ++ c
    if acc2.length > maxBodyBytes then none else readChunksLimited maxBodyBytes acc2 rest

/-- Translation of the body-size step of WAFMiddleware.__call__: for
body-bearing methods, a parseable Content-Length above the limit rejects
immediately; otherwise the body is read chunk by chunk with the running
length checked against the limit. -/
def bodySizeCheck (maxBodyBytes : Nat) (req : PyRequest) : BodyCheck :=
  if req.method = "POST" ∨ req.method = "PUT" ∨ req.method = "PATCH" then
    let fastReject :=
      match headersGet req "content-length" with
      | some s =>
        if s = "" then false
        else
          match parseIntPy s with
          | some n => n > (maxBodyBytes : Int)
          | none => false
      | none => false
    if fastReject then .reject
    else
      match readChunksLimited maxBodyBytes "" req.bodyChunks with
      | some acc => .accept (some acc)
      | none => .reject
  else .accept none

/-- Body shapes of the JSON responses the middleware produces. -/
inductive RespBody where
  | rateLimited
  | payloadTooLarge
  | blocked (score : Int) (ruleIds : List String)
  | noUpstream
  | upstreamError
  | internalError
  | upstreamBody
  deriving DecidableEq, Repr

/-- Observable outcome of one middleware call: either the request is
handed to the local application, or a response with a status, the
application-set headers and a body shape is sent. -/
inductive WafResponse where
  | localApp
  | response (status : Nat) (headers : List (String × String)) (body : RespBody)
  deriving DecidableEq, Repr

/-- Per-request environment of the middleware: the engine state, settings
derived from the configuration, the generated request id, the outcome of
the (clock-dependent) rate limiter and of the (randomized) router. -/
structure WafEnv where
  engine : EngineState
  trustedProxies : Option (List String)
  maxBodyBytes : Nat
  maxInspectBytes : Nat
  inspectBody : Bool
  requestId : String
  rateAllowed : Bool
  routerUpstream : Option String

/-- Translation of WAFMiddleware.__call__ for HTTP scopes.  The bypass
check precedes every other step.  The call of build_inspection_dict at
line 254 of the source passes the keyword argument scope, which the
function signature (request, max_inspect_bytes, body_bytes) does not
accept, so Python raises TypeError there; the outer exception handler
turns it into a 500 internal_error response carrying no WAF headers.  The
dead continuation is nevertheless translated: it would evaluate the
engine, send 403 on BLOCK, and reach the forward_request call at line
334, which passes the keyword argument body_bytes that forward_request
does not accept, so forwarding would raise TypeError as well and the
inner handler would send 502 upstream_error. -/
def wafCall (env : WafEnv) (req : PyRequest) : WafResponse :=
  if INTERNAL_PATHS.contains req.path then .localApp
  else
    let clientIp := get_client_ip req env.trustedProxies
    if ¬ env.rateAllowed then
      .response 429 [("X-Request-ID", env.requestId)] .rateLimited
    else
      match bodySizeCheck env.maxBodyBytes req with
      | .reject => .response 413 [("X-Request-ID", env.requestId)] .payloadTooLarge
      | .accept bodyBytes =>
        if ¬ pyKwargsOk ["request", "max_inspect_bytes", "body_bytes"]
            ["body_bytes", "scope"] then
          .response 500 [] .internalError
        else
          let inspection := build_inspection_dict req env.maxInspectBytes
            (if env.inspectBody then bodyBytes else none)
          match evaluate env.engine inspection clientIp with
          | .error _ => .response 500 [] .internalError
          | .ok r =>
            let wafHeaders := [("X-WAF-Decision", r.verdict),
                               ("X-WAF-Score", toString r.score),
                               ("X-Request-ID", env.requestId)]
            if r.verdict = "BLOCK" then
              .response 403 wafHeaders (.blocked r.score r.ruleIds)
            else
              match env.routerUpstream with
              | none => .response 502 wafHeaders .noUpstream
              | some _ =>
                if ¬ pyKwargsOk forwardRequestParams ["body_bytes"] then
                  .response 502 wafHeaders .upstreamError
                else .response 200 wafHeaders .upstreamBody

/-! ## Concrete fixtures used by the witnesses and counterexamples -/

/-- Engine state of the allowlist unit test of the repository:
ip_allowlist equal to the single entry 1.1.1.1, no rules, defaults
elsewhere. -/
def engAllowlistTest : EngineState :=
  ⟨parseIpList ["1.1.1.1"], [], 5, 6, 10, "block", 10000, []⟩

/-- Engine state with the default thresholds, empty IP lists and no
rules. -/
def engDefault : EngineState :=
  ⟨[], [], 5, 6, 10, "block", 10000, []⟩

/-- Engine state with the default thresholds in monitor mode. -/
def engMonitor : EngineState :=
  ⟨[], [], 5, 6, 10, "monitor", 10000, []⟩

/-- A plain GET request to a non-internal path. -/
def reqPlainGet : PyRequest :=
  ⟨"/x", "", "http", "GET", [], some "1.2.3.4", []⟩

/-- A GET request to the interactive documentation path. -/
def reqDocs : PyRequest :=
  ⟨"/docs", "", "http", "GET", [], some "1.2.3.4", []⟩

/-- A POST request carrying a small body. -/
def reqSmallPost : PyRequest :=
  ⟨"/x", "", "http", "POST", [("content-length", "5")], some "1.2.3.4", ["hello"]⟩

/-- Middleware environment with the default configuration values and a
permissive rate limit outcome. -/
def envDefault : WafEnv :=
  ⟨engDefault, none, 1000000, 10000, false, "rid1", true, some "http://upstream"⟩

/-- The request of end-to-end scenario 1 of the specification: a trusted
peer presenting an X-Forwarded-For header. -/
def reqXffTrusted : PyRequest :=
  ⟨"/x", "", "http", "GET", [("x-forwarded-for", "1.2.3.4")], some "10.0.0.5", []⟩

/-- A header dictionary on which the actual filters and the claimed
filters disagree: the capitalized Connection key defeats the exact-key
lookup of its tokens, and content-length is removed by the response
filter. -/
def mixedCaseHeaders : List (String × String) :=
  [("Connection", "x-custom"), ("x-custom", "v"), ("content-length", "5")]

/-- A configuration whose thresholds are unordered and whose inspection
budget exceeds the body budget, while every validated field is fine. -/
def badConfig : RawConfig :=
  ⟨[⟨"test", "http://localhost", none, none, some 1, none⟩],
   none, none, none, some ⟨10, 2, 1⟩, some ⟨"block", 2000000, 1000, false⟩⟩

/-! ## Theorems -/

/-- C1.  The claim says an allowlisted client IP makes
SecurityEngine.evaluate return ALLOW with score 0 and rule_ids
allowlist.  The code instead raises AttributeError for every context and
every parseable client IP as soon as the allowlist is non-empty, because
_ip_in_list tests isinstance against ipaddress.IPAddress, a name the
Python 3 ipaddress module does not define, and only ValueError is
caught.  The repository unit test test_allowlist_short_circuits asserts
the claimed behavior, so the code contradicts its own test suite. -/
theorem evaluate_allowlist_attribute_error (e : EngineState)
    (inspection : List (String × String)) (ip : String)
    (hip : (parseIPv4 ip).isSome) (hne : e.ipAllowlist ≠ []) :
    evaluate e inspection ip = .error .attributeError := by
  obtain ⟨a, ha⟩ := Option.isSome_iff_exists.mp hip
  match hlist : e.ipAllowlist with
  | [] => exact absurd hlist hne
  | entry :: rest =>
    simp only [evaluate, ipInList, ha, hlist]
    have hattr : "IPAddress" ∉ ipaddressModuleNames := by decide
    simp [hattr]

/-- C1 witness: the exact input of the repository unit test
test_allowlist_short_circuits. -/
theorem evaluate_allowlist_attribute_error_witness :
    (parseIPv4 "1.1.1.1").isSome ∧ engAllowlistTest.ipAllowlist ≠ [] ∧
    evaluate engAllowlistTest [("path", "/"), ("query", ""), ("headers", "")] "1.1.1.1"
      = .error .attributeError := by
  refine ⟨by decide, by decide, ?_⟩
  exact evaluate_allowlist_attribute_error engAllowlistTest
    [("path", "/"), ("query", ""), ("headers", "")] "1.1.1.1" (by decide) (by decide)

/-- C2.  The claim says that a request outside the bypass set that passes
the rate limit and the body-size check gets an inspection context, an
engine verdict, the X-WAF-Decision, X-WAF-Score and X-Request-ID response
headers, and a 403 on BLOCK.  The code instead answers 500 internal_error
with no headers for every such request: the middleware calls
build_inspection_dict with the keyword argument scope, which the function
does not accept, so the call raises TypeError before any evaluation, and
the outer exception handler produces the 500 response. -/
theorem wafCall_always_internal_error (env : WafEnv) (req : PyRequest)
    (hpath : ¬ INTERNAL_PATHS.contains req.path)
    (hrate : env.rateAllowed = true)
    (hbody : bodySizeCheck env.maxBodyBytes req ≠ .reject) :
    wafCall env req = .response 500 [] .internalError := by
  simp only [wafCall, hrate]
  rw [if_neg (by simpa using hpath)]
  match hb : bodySizeCheck env.maxBodyBytes req with
  | .reject => exact absurd hb hbody
  | .accept bodyBytes =>
    have : pyKwargsOk ["request", "max_inspect_bytes", "body_bytes"]
        ["body_bytes", "scope"] = false := by decide
    simp [this]

/-- C2 witness: a plain GET to a non-internal path under the default
environment. -/
theorem wafCall_always_internal_error_witness :
    (¬ INTERNAL_PATHS.contains reqPlainGet.path) ∧
    envDefault.rateAllowed = true ∧
    bodySizeCheck envDefault.maxBodyBytes reqPlainGet ≠ .reject ∧
    wafCall envDefault reqPlainGet = .response 500 [] .internalError := by
  refine ⟨by decide, rfl, by decide, ?_⟩
  exact wafCall_always_internal_error envDefault reqPlainGet (by decide) rfl (by decide)

/-- C5.  The claim says the Forwarder sends the prebuffered body verbatim
and does not re-read the request body stream.  In the code,
forward_request has no parameter for a prebuffered body at all — the
middleware call that passes the keyword argument body_bytes raises
TypeError — and the function re-reads the body from the request object
for every body-bearing method. -/
theorem forward_request_rereads_body :
    pyKwargsOk forwardRequestParams ["body_bytes"] = false ∧
    (∀ (upstreamUrl : String) (req : PyRequest) (clientIp : String),
      (forward_request upstreamUrl req clientIp).bodySent =
        (if req.method = "POST" ∨ req.method = "PUT" ∨ req.method = "PATCH"
         then some (requestBody req) else none)) := by
  constructor
  · decide
  · intro upstreamUrl req clientIp
    rfl

/-- C9.  The claim says a Config whose thresholds violate the ordering
allow le challenge lt block, or whose WAF settings violate
max_inspect_bytes le max_body_bytes, is rejected with a validation
error.  The model classes declare no such validators: this configuration
violates both constraints and is accepted. -/
theorem mkConfig_accepts_bad_thresholds :
    badConfig.thresholds = some ⟨10, 2, 1⟩ ∧
    badConfig.wafSettings = some ⟨"block", 2000000, 1000, false⟩ ∧
    ¬ ((10 : Int) ≤ 2 ∧ (2 : Int) < 1) ∧
    ¬ ((2000000 : Int) ≤ 1000) ∧
    mkConfig badConfig = .ok badConfig := by
  refine ⟨rfl, rfl, by decide, by decide, ?_⟩
  rfl

/-- C9 amended: Config construction succeeds whenever the checks the code
does perform pass — positive upstream weights, a valid waf mode, and
parseable trusted-proxy, allowlist and blocklist entries — regardless of
the threshold ordering and of the relation between max_inspect_bytes and
max_body_bytes. -/
theorem mkConfig_ok_of_enforced_checks (c : RawConfig)
    (hw : c.upstreams.all validUpstreamWeight = true)
    (hm : c.wafSettings.all validWafMode = true)
    (ht : (c.trustedProxies.getD []).all (fun t => (parseNetwork t).isSome) = true)
    (ha : (c.ipAllowlist.getD []).all validIpEntry = true)
    (hb : (c.ipBlocklist.getD []).all validIpEntry = true) :
    mkConfig c = .ok c := by
  simp [mkConfig, hw, hm, ht, ha, hb]

/-- C9 witness: the enforced checks pass on the unordered-thresholds
configuration, and construction indeed succeeds. -/
theorem mkConfig_ok_of_enforced_checks_witness :
    badConfig.upstreams.all validUpstreamWeight = true ∧
    badConfig.wafSettings.all validWafMode = true ∧
    mkConfig badConfig = .ok badConfig := by
  refine ⟨by decide, by decide, ?_⟩
  exact mkConfig_ok_of_enforced_checks badConfig (by decide) (by decide)
    (by decide) (by decide) (by decide)

/-- C10.  Requests to /docs, /redoc and /openapi.json are handed to the
local application before any rate limiting, body-size enforcement,
evaluation or forwarding (the outcome is localApp for every environment,
including rate-limited ones), and the bypass set INTERNAL_PATHS strictly
contains the four paths the specification documents. -/
theorem internal_paths_bypass :
    (∀ (env : WafEnv) (req : PyRequest),
      req.path = "/docs" ∨ req.path = "/redoc" ∨ req.path = "/openapi.json" →
      wafCall env req = .localApp) ∧
    (∀ p ∈ specDocumentedInternalPaths, p ∈ INTERNAL_PATHS) ∧
    "/docs" ∈ INTERNAL_PATHS ∧ "/docs" ∉ specDocumentedInternalPaths := by
  refine ⟨?_, by decide, by decide, by decide⟩
  intro env req hreq
  have hmem : req.path ∈ INTERNAL_PATHS := by
    rcases hreq with h | h | h <;> rw [h] <;> decide
  simp [wafCall, hmem]

/-- C4.  The verdict mapping of the engine: in block mode a score at or
above the block threshold gives BLOCK, a score strictly between the allow
and block thresholds gives SUSPICIOUS, and a score at or below the allow
threshold gives ALLOW; in monitor mode a would-be BLOCK is demoted to
SUSPICIOUS, other verdicts are unchanged, and the score and findings of
evaluate do not depend on the mode; with the default thresholds the
boundary scores 0, 5, 6, 9, 10 map to ALLOW, ALLOW, SUSPICIOUS,
SUSPICIOUS, BLOCK. -/
theorem decide_verdict_thresholds (e : EngineState) (s : Int)
    (hth : e.allowThreshold < e.blockThreshold) :
    (e.mode ≠ "monitor" →
      (s ≥ e.blockThreshold → decide_verdict e s = "BLOCK") ∧
      (e.allowThreshold < s ∧ s < e.blockThreshold → decide_verdict e s = "SUSPICIOUS") ∧
      (s ≤ e.allowThreshold → decide_verdict e s = "ALLOW")) ∧
    (e.mode = "monitor" →
      (s ≥ e.blockThreshold → decide_verdict e s = "SUSPICIOUS") ∧
      (decide_verdict { e with mode := "block" } s ≠ "BLOCK" →
        decide_verdict e s = decide_verdict { e with mode := "block" } s) ∧
      (∀ (inspection : List (String × String)) (ip : String),
        (evaluate { e with mode := "monitor" } inspection ip).map
            (fun r => (r.score, r.findings)) =
          (evaluate { e with mode := "block" } inspection ip).map
            (fun r => (r.score, r.findings)))) ∧
    (decide_verdict engDefault 0 = "ALLOW" ∧ decide_verdict engDefault 5 = "ALLOW" ∧
     decide_verdict engDefault 6 = "SUSPICIOUS" ∧ decide_verdict engDefault 9 = "SUSPICIOUS" ∧
     decide_verdict engDefault 10 = "BLOCK") := by
  refine ⟨?_, ?_, by decide, by decide, by decide, by decide, by decide⟩
  · intro hmode
    refine ⟨?_, ?_, ?_⟩
    · intro h
      simp [decide_verdict, h, hmode]
    · rintro ⟨h1, h2⟩
      have hnb : ¬ s ≥ e.blockThreshold := by omega
      simp [decide_verdict, hnb, h1]
    · intro h
      have hnb : ¬ s ≥ e.blockThreshold := by omega
      have hna : ¬ s > e.allowThreshold := by omega
      simp [decide_verdict, hnb, hna]
  · intro hm
    refine ⟨?_, ?_, ?_⟩
    · intro h
      simp [decide_verdict, h, hm]
    · intro hnb
      by_cases h1 : s ≥ e.blockThreshold
      · exact absurd (by simp [decide_verdict, h1]) hnb
      · by_cases h2 : s > e.allowThreshold <;> simp [decide_verdict, h1, h2, hm]
    · intro inspection ip
      simp only [evaluate]
      cases hA : ipInList ip e.ipAllowlist with
      | error err => rfl
      | ok bA =>
        cases bA
        · cases hB : ipInList ip e.ipBlocklist with
          | error err => rfl
          | ok bB => cases bB <;> rfl
        · rfl

/-- C4 witness: the demotion applies at the monitor-mode engine with the
default thresholds and a score of 10. -/
theorem decide_verdict_thresholds_witness :
    engMonitor.allowThreshold < engMonitor.blockThreshold ∧
    decide_verdict engMonitor 10 = "SUSPICIOUS" :=
  ⟨by decide,
   ((decide_verdict_thresholds engMonitor 10 (by decide)).2.1 rfl).1 (by decide)⟩

/-- C6 counterexample.  On this dictionary the response filter disagrees
with the claimed behavior: the claim predicts that x-custom (a token of
the request Connection header, to be matched case-insensitively) is
removed and content-length is kept, while the code keeps x-custom
(the exact-key lookup of the lowercase connection key misses the
capitalized entry) and removes content-length. -/
theorem filter_response_headers_counterexample :
    filter_response_headers mixedCaseHeaders ≠ specFilterResponse mixedCaseHeaders ∧
    filter_response_headers mixedCaseHeaders = [("x-custom", "v")] ∧
    specFilterResponse mixedCaseHeaders = [("content-length", "5")] := by
  refine ⟨by decide, by decide, by decide⟩

/-- C6 amended: the two filters are one and the same function; a header
survives exactly when its lowercased name is neither in the hop-by-hop
set extended with content-length (for responses as well as for requests)
nor among the comma tokens of the value found under the exact lowercase
key connection of the same dictionary; surviving headers keep their names
and values and their order (the output is a sublist of the input). -/
theorem filter_headers_amended :
    (filter_request_headers = filter_response_headers) ∧
    (∀ (headers : List (String × String)) (k v : String),
      (k, v) ∈ filter_request_headers headers ↔
        ((k, v) ∈ headers ∧ ¬ HEADERS_TO_REMOVE.contains (strLower k) ∧
         ¬ (connectionTokens headers).contains (strLower k))) ∧
    (∀ headers : List (String × String),
      (filter_request_headers headers).Sublist headers) := by
  refine ⟨rfl, ?_, ?_⟩
  · intro headers k v
    simp only [filter_request_headers, should_forward_header, List.mem_filter,
      decide_eq_true_eq]
  · intro headers
    exact List.filter_sublist _

/-- C8 counterexample.  For the triple-encoded input the pipeline budget
of two decodes is not idempotent: normalizing the twice-decoded string
yields A while normalizing the original yields the still-encoded
percent-41. -/
theorem normalize_query_counterexample :
    normalize_query (some (multiUrldecode "%252541" 2)) ≠ normalize_query (some "%252541") ∧
    normalize_query (some "%252541") = "%41" ∧
    normalize_query (some (multiUrldecode "%252541" 2)) = "A" := by
  refine ⟨by decide, by decide, by decide⟩

/-- C8 amended: the claimed identity holds for every query string whose
percent-encoding is exhausted by the two-pass budget, that is whenever a
third decode changes nothing. -/
theorem normalize_query_idempotent_under_budget (q : String)
    (h : pyUnquote (pyUnquote (pyUnquote q)) = pyUnquote (pyUnquote q)) :
    normalize_query (some (multiUrldecode q 2)) = normalize_query (some q) := by
  have key : multiUrldecode (multiUrldecode q 2) 2 = multiUrldecode q 2 := by
    by_cases hq : q = ""
    · subst hq; rfl
    · by_cases hq2 : multiUrldecode q 2 = ""
      · rw [hq2]
        rfl
      · have h2 : multiUrldecode q 2 = pyUnquote (pyUnquote q) := by
          simp only [multiUrldecode, if_neg hq]
          rfl
        rw [h2] at hq2 ⊢
        simp only [multiUrldecode, if_neg hq2]
        show pyUnquote (pyUnquote (pyUnquote (pyUnquote q))) = pyUnquote (pyUnquote q)
        rw [congrArg pyUnquote h, h]
  simp only [normalize_query, key]

/-- C8 witness: the double-encoded string percent-2541 is exhausted by
two decodes, and the identity holds there. -/
theorem normalize_query_idempotent_under_budget_witness :
    pyUnquote (pyUnquote (pyUnquote "%2541")) = pyUnquote (pyUnquote "%2541") ∧
    normalize_query (some (multiUrldecode "%2541" 2)) = normalize_query (some "%2541") :=
  ⟨by decide, normalize_query_idempotent_under_budget "%2541" (by decide)⟩

/-- The trusted-peer loop returns, when every entry parses, exactly the
any-fold of network membership over the list. -/
theorem peerTrustedLoop_eq_any (a : Nat) :
    ∀ tps : List String, (∀ t ∈ tps, (parseNetwork t).isSome) →
      peerTrustedLoop a tps = .ok (tps.any (fun t =>
        match parseNetwork t with
        | none => false
        | some n => memNet a n))
  | [], _ => rfl
  | t :: rest, h => by
    obtain ⟨n, hn⟩ := Option.isSome_iff_exists.mp (h t (List.mem_cons_self t rest))
    have ih := peerTrustedLoop_eq_any a rest
      (fun u hu => h u (List.mem_cons_of_mem t hu))
    simp only [peerTrustedLoop, hn, List.any_cons]
    cases hm : memNet a n
    · simpa [hm] using ih
    · simp [hm]

/-- Under a fully parseable trusted list, the first phase of get_client_ip
computes exactly the specification-side containment of a parseable peer. -/
theorem peerTrustedCheck_eq (peer : String) (tps : List String) (a : Nat)
    (hpa : parseIPv4 peer = some a)
    (hparse : ∀ t ∈ tps, (parseNetwork t).isSome) :
    peerTrustedCheck peer tps = .ok (peerContained peer tps) := by
  simp only [peerTrustedCheck, peerContained, hpa]
  exact peerTrustedLoop_eq_any a tps hparse

/-- A contained peer parses, and its address lies in one of the parsed
networks. -/
theorem peerContained_exists (peer : String) (tps : List String)
    (hc : peerContained peer tps = true) :
    ∃ a, parseIPv4 peer = some a ∧
      (tps.filterMap parseNetwork).any (memNet a) = true := by
  unfold peerContained at hc
  cases hpa : parseIPv4 peer with
  | none => rw [hpa] at hc; exact absurd hc (by simp)
  | some a =>
    rw [hpa] at hc
    refine ⟨a, rfl, ?_⟩
    obtain ⟨t, ht, hmt⟩ := List.any_eq_true.mp hc
    cases hn : parseNetwork t with
    | none => rw [hn] at hmt; exact absurd hmt (by simp)
    | some n =>
      rw [hn] at hmt
      exact List.any_eq_true.mpr ⟨n, List.mem_filterMap.mpr ⟨t, ht, hn⟩, hmt⟩

/-- Dropping empty strings before filtering for parseable addresses
changes nothing, because the empty string does not parse. -/
theorem filter_parse_drop_empty :
    ∀ l : List String,
      (l.filter (fun e => e ≠ "")).filter (fun e => (parseIPv4 e).isSome) =
        l.filter (fun e => (parseIPv4 e).isSome)
  | [] => rfl
  | x :: xs => by
    by_cases hx : x = ""
    · subst hx
      simpa using filter_parse_drop_empty xs
    · simp only [List.filter_cons]
      rw [if_pos (by simpa using hx)]
      simp only [List.filter_cons]
      cases hp : (parseIPv4 x).isSome <;>
        simpa [hp] using filter_parse_drop_empty xs

/-- dropWhile only looks at the elements of the list, so predicates that
agree on them give the same result. -/
theorem dropWhile_congr_mem {α : Type} (p q : α → Bool) :
    ∀ l : List α, (∀ x ∈ l, p x = q x) → l.dropWhile p = l.dropWhile q
  | [], _ => rfl
  | x :: xs, h => by
    simp only [List.dropWhile]
    rw [h x (List.mem_cons_self x xs)]
    cases q x
    · rfl
    · exact dropWhile_congr_mem p q xs (fun y hy => h y (List.mem_cons_of_mem x hy))

/-- The specification-side resolution applied to an absent or empty
forwarded-for header returns the peer whenever the peer is trusted. -/
theorem specResolveXff_empty (peer : String) (nets : List IpNetwork) (a : Nat)
    (hpa : parseIPv4 peer = some a) (hmem : nets.any (memNet a) = true) :
    specResolveXff peer "" nets = peer := by
  have hpop : (fun ip => match parseIPv4 ip with
      | none => false
      | some b => nets.any (memNet b)) peer = true := by
    simp only [hpa]
    exact hmem
  simp [specResolveXff, splitStr, splitCharAux, pyStrip, List.dropWhile, hpop]

/-- Looking a key up right after assigning it yields the assigned bucket. -/
theorem bucketsGet_bucketsSet_self (bs : List (String × TokenBucket))
    (key : String) (b : TokenBucket) :
    bucketsGet (bucketsSet bs key b) key = some b := by
  unfold bucketsSet
  by_cases hany : bs.any (fun kv => kv.1 = key)
  · rw [if_pos hany]
    induction bs with
    | nil => simp at hany
    | cons hd tl ih =>
      by_cases hhd : hd.1 = key
      · simp [bucketsGet, List.find?, hhd]
      · have htl : tl.any (fun kv => kv.1 = key) := by
          simpa [List.any_cons, hhd] using hany
        simpa [bucketsGet, List.find?, hhd] using ih htl
  · rw [if_neg hany]
    have hnone : bs.find? (fun kv => decide (kv.1 = key)) = none := by
      rw [List.find?_eq_none]
      intro kv hkv
      simp only [decide_eq_true_eq]
      intro hk
      exact hany (List.any_of_mem hkv (by simpa using hk))
    simp [bucketsGet, List.find?_append, hnone]

/-- C7.  RateLimiter.is_allowed on a key with default limit: a previously
unseen key receives a bucket with capacity equal to the configured
requests-per-minute figure, refill rate capacity over sixty per second
and full tokens, which the call then refills and consumes; a present
bucket is refilled to the minimum of the capacity and tokens plus elapsed
time multiplied by the rate, and the call succeeds exactly when that
refilled amount is at least one; consequently with capacity 2 three
requests within less than thirty seconds yield true, true, false. -/
theorem rate_limiter_token_bucket (rl : RateLimiterState) (key : String)
    (b : TokenBucket) (now t1 t2 t3 : ℚ)
    (h12 : t1 ≤ t2) (_h23 : t2 ≤ t3) (h13 : t3 < t1 + 30) :
    (bucketsGet rl.buckets key = none →
      (isAllowed rl key none now).1 = decide (rl.defaultRpm ≥ 1) ∧
      bucketsGet (isAllowed rl key none now).2.buckets key =
        some ⟨rl.defaultRpm, rl.defaultRpm / 60,
          if rl.defaultRpm ≥ 1 then rl.defaultRpm - 1 else rl.defaultRpm, now⟩) ∧
    (bucketsGet rl.buckets key = some b →
      ((isAllowed rl key none now).1 = true ↔
        1 ≤ min b.capacity (b.tokens + (now - b.lastRefill) * b.refillRate))) ∧
    ((isAllowed ⟨2, []⟩ "k" none t1).1 = true ∧
     (isAllowed (isAllowed ⟨2, []⟩ "k" none t1).2 "k" none t2).1 = true ∧
     (isAllowed (isAllowed (isAllowed ⟨2, []⟩ "k" none t1).2 "k" none t2).2
        "k" none t3).1 = false) := by
  refine ⟨?_, ?_, ?_⟩
  · intro hnone
    by_cases hc : (1 : ℚ) ≤ rl.defaultRpm <;>
      simp [isAllowed, limitTruthy, hnone, TokenBucket.make, TokenBucket.allowRequest,
        bucketsGet_bucketsSet_self, hc]
  · intro hb
    by_cases hge : (1 : ℚ) ≤ min b.capacity (b.tokens + (now - b.lastRefill) * b.refillRate) <;>
      simp [isAllowed, limitTruthy, hb, TokenBucket.allowRequest, hge]
  · have e1 : isAllowed ⟨2, []⟩ "k" none t1 =
        (true, ⟨2, [("k", ⟨2, 2 / 60, 1, t1⟩)]⟩) := by
      norm_num [isAllowed, limitTruthy, bucketsGet, bucketsSet,
        TokenBucket.make, TokenBucket.allowRequest]
    have hge2 : (1 : ℚ) ≤ min 2 (1 + (t2 - t1) * (2 / 60)) := by
      refine le_min (by norm_num) ?_
      nlinarith [sub_nonneg.mpr h12]
    have e2 : isAllowed (⟨2, [("k", ⟨2, 2 / 60, 1, t1⟩)]⟩ : RateLimiterState)
        "k" none t2 =
        (true, ⟨2, [("k", ⟨2, 2 / 60, min 2 (1 + (t2 - t1) * (2 / 60)) - 1, t2⟩)]⟩) := by
      simp [isAllowed, limitTruthy, bucketsGet, bucketsSet, TokenBucket.allowRequest, hge2]
    have hlt : ¬ (1 : ℚ) ≤ min 2 ((min 2 (1 + (t2 - t1) * (2 / 60)) - 1) +
        (t3 - t2) * (2 / 60)) := by
      intro hcon
      have hm1 : min 2 (1 + (t2 - t1) * (2 / 60)) ≤ 1 + (t2 - t1) * (2 / 60) :=
        min_le_right _ _
      have hm2 : min 2 ((min 2 (1 + (t2 - t1) * (2 / 60)) - 1) + (t3 - t2) * (2 / 60)) ≤
          (min 2 (1 + (t2 - t1) * (2 / 60)) - 1) + (t3 - t2) * (2 / 60) :=
        min_le_right _ _
      nlinarith
    refine ⟨by rw [e1], by rw [e1, e2], ?_⟩
    rw [e1, e2]
    simp [isAllowed, limitTruthy, bucketsGet, bucketsSet, TokenBucket.allowRequest, hlt]

/-- C7 witness: the three-request scenario at concrete times 0, 10 and
20 seconds. -/
theorem rate_limiter_token_bucket_witness :
    (0 : ℚ) ≤ 10 ∧ (10 : ℚ) ≤ 20 ∧ (20 : ℚ) < 0 + 30 ∧
    ((isAllowed ⟨2, []⟩ "k" none 0).1 = true ∧
     (isAllowed (isAllowed ⟨2, []⟩ "k" none 0).2 "k" none 10).1 = true ∧
     (isAllowed (isAllowed (isAllowed ⟨2, []⟩ "k" none 0).2 "k" none 10).2
        "k" none 20).1 = false) :=
  ⟨by norm_num, by norm_num, by norm_num,
   (rate_limiter_token_bucket ⟨2, []⟩ "k" ⟨2, 2 / 60, 2, 0⟩ 0 0 10 20
     (by norm_num) (by norm_num) (by norm_num)).2.2⟩

/-- C3.  For a request whose socket peer is the given address and a list
of parseable trusted-proxy CIDRs: when the peer is not contained in any
trusted CIDR the function returns the peer whatever the headers say, and
when it is contained the result is exactly the specified resolution of
the X-Forwarded-For header: parseable entries, peer appended, trusted
elements stripped from the right, last remaining element or else the
peer. -/
theorem get_client_ip_trusted_proxies (req : PyRequest) (peer : String)
    (tps : List String)
    (hpeer : req.clientHost = some peer)
    (hparse : ∀ t ∈ tps, (parseNetwork t).isSome) :
    (peerContained peer tps = false → get_client_ip req (some tps) = peer) ∧
    (peerContained peer tps = true →
      get_client_ip req (some tps) =
        specResolveXff peer ((headersGet req "x-forwarded-for").getD "")
          (tps.filterMap parseNetwork)) := by
  constructor
  · intro hnc
    simp only [get_client_ip, hpeer, Option.getD_some]
    by_cases hemp : tps.isEmpty
    · simp [hemp]
    · cases hpa : parseIPv4 peer with
      | none =>
        simp [hemp, peerTrustedCheck, hpa]
      | some a =>
        have hch := peerTrustedCheck_eq peer tps a hpa hparse
        rw [hnc] at hch
        simp [hemp, hch]
  · intro hc
    obtain ⟨a, hpa, hanets⟩ := peerContained_exists peer tps hc
    have hne : tps ≠ [] := by
      rintro rfl
      simp [peerContained, hpa] at hc
    have hemp : tps.isEmpty = false := by
      cases tps with
      | nil => exact absurd rfl hne
      | cons t rest => rfl
    have hch := peerTrustedCheck_eq peer tps a hpa hparse
    rw [hc] at hch
    simp only [get_client_ip, hpeer, Option.getD_some, hemp, hch]
    cases hx : headersGet req "x-forwarded-for" with
    | none =>
      simp only [Option.getD_none]
      exact (specResolveXff_empty peer _ a hpa hanets).symm
    | some xff =>
      by_cases hxe : xff = ""
      · subst hxe
        simp only [Option.getD_some, if_pos rfl]
        exact (specResolveXff_empty peer _ a hpa hanets).symm
      · simp only [Option.getD_some, if_neg hxe]
        have hlist : (((splitStr xff ',').map pyStrip).filter (fun e => e ≠ "")).filter
            (fun e => (parseIPv4 e).isSome) =
            ((splitStr xff ',').map pyStrip).filter (fun e => (parseIPv4 e).isSome) :=
          filter_parse_drop_empty _
        rw [hlist]
        simp only [specResolveXff, stripTrustedRight]
        have hagree : ∀ x ∈ ((((splitStr xff ',').map pyStrip).filter
            (fun e => (parseIPv4 e).isSome)) ++ [peer]).reverse,
            xffShouldPop (tps.filterMap parseNetwork) x =
              (fun ip => match parseIPv4 ip with
                         | none => false
                         | some b => (tps.filterMap parseNetwork).any (memNet b)) x := by
          intro x hx2
          rw [List.mem_reverse] at hx2
          rcases List.mem_append.mp hx2 with hxl | hxp
          · obtain ⟨-, hxp2⟩ := List.mem_filter.mp hxl
            obtain ⟨b, hb⟩ := Option.isSome_iff_exists.mp hxp2
            simp [xffShouldPop, hb]
          · have hxx : x = peer := by simpa using hxp
            subst hxx
            simp [xffShouldPop, hpa]
        rw [dropWhile_congr_mem _ _ _ hagree]
        simp

/-- C3 witness: end-to-end scenario 1 of the specification, a trusted
peer at 10.0.0.5 presenting X-Forwarded-For 1.2.3.4, resolved to
1.2.3.4. -/
theorem get_client_ip_trusted_proxies_witness :
    reqXffTrusted.clientHost = some "10.0.0.5" ∧
    (∀ t ∈ ["10.0.0.0/8"], (parseNetwork t).isSome) ∧
    peerContained "10.0.0.5" ["10.0.0.0/8"] = true ∧
    get_client_ip reqXffTrusted (some ["10.0.0.0/8"]) =
      specResolveXff "10.0.0.5"
        ((headersGet reqXffTrusted "x-forwarded-for").getD "")
        (["10.0.0.0/8"].filterMap parseNetwork) ∧
    get_client_ip reqXffTrusted (some ["10.0.0.0/8"]) = "1.2.3.4" :=
  ⟨rfl, by decide, by decide,
   (get_client_ip_trusted_proxies reqXffTrusted "10.0.0.5" ["10.0.0.0/8"]
     rfl (by decide)).2 (by decide),
   by decide⟩

/-- C10 witness: a request to /docs bypasses the pipeline even when the
rate limiter would refuse it. -/
theorem internal_paths_bypass_witness :
    (reqDocs.path = "/docs" ∨ reqDocs.path = "/redoc" ∨ reqDocs.path = "/openapi.json") ∧
    wafCall { envDefault with rateAllowed := false } reqDocs = .localApp := by
  refine ⟨Or.inl rfl, ?_⟩
  exact internal_paths_bypass.1 { envDefault with rateAllowed := false } reqDocs (Or.inl rfl)

end Waf
